import Mathlib

/-!
Verification of the text transcoding engine of the ha-escpos-thermal-printer
repository (`custom_components/escpos_printer/text_utils/`): the codec
resolver (`codepage_mapping.py`), the fallback tables (`lookalike_map.py`,
`accent_fallback_map.py`) and the transcoding pipeline (`transcoding.py`).

The Python code is shallowly embedded: strings are Lean `String`s (lists of
Unicode scalar values, iterated by code point exactly as Python iterates a
`str`), the runtime codec registry is modelled as a finite association list
from codec names to per-character encodability predicates, a fallible
`str.encode` is an `Except` value, and the Unicode NFKC normalization of the
runtime is modelled by an explicit function.  Pipeline functions are stated
parametrically in the normalization function and the registry where the
property does not depend on them, and instantiated at the concrete models
otherwise.
-/

namespace EscposTranscode

/-- A codec of the runtime encoding layer, modelled by its repertoire: the
predicate holds exactly on the characters the codec can encode.  This models
CPython charmap codecs, for which a string encodes iff every one of its
characters does. -/
abbrev Codec := Char → Bool

/-- The runtime codec registry: codec name to codec.  `none` on lookup models
the `LookupError` Python raises for an unknown codec name. -/
abbrev Registry := List (String × Codec)

/-- Look a codec name up in a registry (models the codec lookup the runtime
performs inside `str.encode`). -/
def lookupCodec (reg : Registry) (name : String) : Option Codec :=
  (reg.find? (fun p => p.1 == name)).map (fun p => p.2)

/-- The two exception kinds the transcoding code handles: `UnicodeEncodeError`
(a character is outside the codec repertoire) and `LookupError` (the codec
name is unknown to the runtime). -/
inductive PyError where
  | unicodeEncodeError
  | lookupError

/-- A string is encodable by a codec iff every character is in its repertoire
(charmap-codec semantics of the runtime). -/
def encodable (enc : Codec) (s : String) : Bool :=
  s.data.all enc

/-- Model of Python `s.encode(codec)` restricted to its success/failure
behaviour: `LookupError` when the codec name is unknown, `UnicodeEncodeError`
when some character of `s` is outside the repertoire, success otherwise. -/
def strEncode (reg : Registry) (codec : String) (s : String) : Except PyError Unit :=
  match lookupCodec reg codec with
  | none => .error .lookupError
  | some enc => if encodable enc s then .ok () else .error .unicodeEncodeError

/-- The string containing the single character `c` (Python iterates a `str`
by code point, so the per-character encode probes act on such strings). -/
def charStr (c : Char) : String :=
  String.mk [c]

/-- Concatenation of a list of strings, models `"".join(result_chars)`. -/
def joinStr (l : List String) : String :=
  String.mk (List.flatten (l.map String.data))

/-- Model of the code points 0x80..0xFF of the runtime `cp437` codec,
transcribed from the standard IBM PC code page 437 table (bytes 0x00..0x7F
encode the identical ASCII code points and are handled separately). -/
def cp437High : List Nat :=
  [0x00C7, 0x00FC, 0x00E9, 0x00E2, 0x00E4, 0x00E0, 0x00E5, 0x00E7,
   0x00EA, 0x00EB, 0x00E8, 0x00EF, 0x00EE, 0x00EC, 0x00C4, 0x00C5,
   0x00C9, 0x00E6, 0x00C6, 0x00F4, 0x00F6, 0x00F2, 0x00FB, 0x00F9,
   0x00FF, 0x00D6, 0x00DC, 0x00A2, 0x00A3, 0x00A5, 0x20A7, 0x0192,
   0x00E1, 0x00ED, 0x00F3, 0x00FA, 0x00F1, 0x00D1, 0x00AA, 0x00BA,
   0x00BF, 0x2310, 0x00AC, 0x00BD, 0x00BC, 0x00A1, 0x00AB, 0x00BB,
   0x2591, 0x2592, 0x2593, 0x2502, 0x2524, 0x2561, 0x2562, 0x2556,
   0x2555, 0x2563, 0x2551, 0x2557, 0x255D, 0x255C, 0x255B, 0x2510,
   0x2514, 0x2534, 0x252C, 0x251C, 0x2500, 0x253C, 0x255E, 0x255F,
   0x255A, 0x2554, 0x2569, 0x2566, 0x2560, 0x2550, 0x256C, 0x2567,
   0x2568, 0x2564, 0x2565, 0x2559, 0x2558, 0x2552, 0x2553, 0x256B,
   0x256A, 0x2518, 0x250C, 0x2588, 0x2584, 0x258C, 0x2590, 0x2580,
   0x03B1, 0x00DF, 0x0393, 0x03C0, 0x03A3, 0x03C3, 0x00B5, 0x03C4,
   0x03A6, 0x0398, 0x03A9, 0x03B4, 0x221E, 0x03C6, 0x03B5, 0x2229,
   0x2261, 0x00B1, 0x2265, 0x2264, 0x2320, 0x2321, 0x00F7, 0x2248,
   0x00B0, 0x2219, 0x00B7, 0x221A, 0x207F, 0x00B2, 0x25A0, 0x00A0]

/-- Repertoire of the runtime `cp437` codec. -/
def cp437Enc (c : Char) : Bool :=
  c.toNat < 128 || cp437High.contains c.toNat

/-- Repertoire of the runtime `iso-8859-1` codec: exactly U+0000..U+00FF. -/
def latin1Enc (c : Char) : Bool :=
  c.toNat ≤ 255

/-- Model of the code points encodable at bytes 0x80..0xFF of the runtime
`cp1258` codec (windows-1258), transcribed from the standard table; bytes
0x81, 0x8A, 0x8D, 0x8E, 0x8F, 0x90, 0x9A, 0x9D and 0x9E are undefined. -/
def cp1258High : List Nat :=
  [0x20AC, 0x201A, 0x0192, 0x201E, 0x2026, 0x2020, 0x2021, 0x02C6,
   0x2030, 0x2039, 0x0152, 0x2018, 0x2019, 0x201C, 0x201D, 0x2022,
   0x2013, 0x2014, 0x02DC, 0x2122, 0x203A, 0x0153, 0x0178,
   0x00A0, 0x00A1, 0x00A2, 0x00A3, 0x00A4, 0x00A5, 0x00A6, 0x00A7,
   0x00A8, 0x00A9, 0x00AA, 0x00AB, 0x00AC, 0x00AD, 0x00AE, 0x00AF,
   0x00B0, 0x00B1, 0x00B2, 0x00B3, 0x00B4, 0x00B5, 0x00B6, 0x00B7,
   0x00B8, 0x00B9, 0x00BA, 0x00BB, 0x00BC, 0x00BD, 0x00BE, 0x00BF,
   0x00C0, 0x00C1, 0x00C2, 0x0102, 0x00C4, 0x00C5, 0x00C6, 0x00C7,
   0x00C8, 0x00C9, 0x00CA, 0x00CB, 0x0300, 0x00CD, 0x00CE, 0x00CF,
   0x0110, 0x00D1, 0x0309, 0x00D3, 0x00D4, 0x01A0, 0x00D6, 0x00D7,
   0x00D8, 0x00D9, 0x00DA, 0x00DB, 0x00DC, 0x01AF, 0x0303, 0x00DF,
   0x00E0, 0x00E1, 0x00E2, 0x0103, 0x00E4, 0x00E5, 0x00E6, 0x00E7,
   0x00E8, 0x00E9, 0x00EA, 0x00EB, 0x0301, 0x00ED, 0x00EE, 0x00EF,
   0x0111, 0x00F1, 0x0323, 0x00F3, 0x00F4, 0x01A1, 0x00F6, 0x00F7,
   0x00F8, 0x00F9, 0x00FA, 0x00FB, 0x00FC, 0x01B0, 0x20AB, 0x00FF]

/-- Repertoire of the runtime `cp1258` codec. -/
def cp1258Enc (c : Char) : Bool :=
  c.toNat < 128 || cp1258High.contains c.toNat

/-- Model of the runtime codec registry, restricted to the codecs this
development evaluates concretely.  Codec names absent from this list model
names for which the runtime raises `LookupError` (in particular, no runtime
codec is named `not_a_real_codepage`). -/
def pythonRegistry : Registry :=
  [("cp437", cp437Enc), ("iso-8859-1", latin1Enc), ("cp1258", cp1258Enc)]

/-- Model of the singleton compatibility mappings of the runtime Unicode NFKC
normalization (`unicodedata.normalize("NFKC", ...)`), restricted to the
characters this development evaluates concretely; every listed entry is a
real NFKC mapping of the Unicode character database, and every character this
development evaluates that is not listed is NFKC-invariant as a singleton. -/
def nfkcCompatTable : List (Char × String) :=
  [('\u00B2', "2"), ('\u00B3', "3"), ('\u00B9', "1"),
   ('\u00A0', " "), ('\uFB01', "fi")]

/-- Compatibility expansion of one character under the modelled NFKC. -/
def nfkcCompatChar (c : Char) : List Char :=
  match (nfkcCompatTable.find? (fun p => p.1 == c)).map (fun p => p.2) with
  | some s => s.data
  | none => [c]

/-- Model of the canonical composition pairs of the runtime Unicode NFKC
normalization, restricted to base letter + U+0301 COMBINING ACUTE ACCENT
pairs; every listed entry is a real primary composite of the Unicode
character database, and no pair this development evaluates outside this list
has a primary composite. -/
def nfkcComposeTable : List ((Char × Char) × Char) :=
  [(('a', '\u0301'), '\u00E1'), (('e', '\u0301'), '\u00E9'),
   (('i', '\u0301'), '\u00ED'), (('o', '\u0301'), '\u00F3'),
   (('u', '\u0301'), '\u00FA'), (('y', '\u0301'), '\u00FD'),
   (('A', '\u0301'), '\u00C1'), (('E', '\u0301'), '\u00C9'),
   (('I', '\u0301'), '\u00CD'), (('O', '\u0301'), '\u00D3'),
   (('U', '\u0301'), '\u00DA'), (('Y', '\u0301'), '\u00DD')]

/-- Canonical composition of an adjacent pair under the modelled NFKC. -/
def nfkcComposePair (a b : Char) : Option Char :=
  (nfkcComposeTable.find? (fun p => p.1.1 == a && p.1.2 == b)).map (fun p => p.2)

/-- One step of the composition pass: try to compose the new character with
the last character emitted so far. -/
def nfkcComposeStep (acc : List Char) (c : Char) : List Char :=
  match acc.getLast? with
  | some b =>
    match nfkcComposePair b c with
    | some d => acc.dropLast ++ [d]
    | none => acc ++ [c]
  | none => [c]

/-- Model of the runtime Unicode NFKC normalization
(`unicodedata.normalize("NFKC", text)`, called by `normalize_unicode` in
`transcoding.py`): compatibility-expand each character, then canonically
compose adjacent pairs left to right.  Faithful to the runtime on every
string this development evaluates. -/
def nfkcModel (s : String) : String :=
  String.mk ((s.data.flatMap nfkcCompatChar).foldl nfkcComposeStep [])

/-! ## codepage_mapping.py -/

/-- `CODEPAGE_TO_CODEC` of `codepage_mapping.py`: the static table from
common codepage names to runtime codec names. -/
def CODEPAGE_TO_CODEC : List (String × String) :=
  [("CP437", "cp437"),
   ("CP850", "cp850"),
   ("CP852", "cp852"),
   ("CP858", "cp858"),
   ("CP860", "cp860"),
   ("CP863", "cp863"),
   ("CP865", "cp865"),
   ("CP866", "cp866"),
   ("CP932", "cp932"),
   ("CP1250", "cp1250"),
   ("CP1251", "cp1251"),
   ("CP1252", "cp1252"),
   ("CP1253", "cp1253"),
   ("CP1254", "cp1254"),
   ("CP1255", "cp1255"),
   ("CP1256", "cp1256"),
   ("CP1257", "cp1257"),
   ("CP1258", "cp1258"),
   ("ISO_8859-1", "iso-8859-1"),
   ("ISO_8859-2", "iso-8859-2"),
   ("ISO_8859-7", "iso-8859-7"),
   ("ISO_8859-15", "iso-8859-15"),
   ("LATIN1", "latin-1"),
   ("UTF-8", "utf-8")]

/-- Dictionary lookup in the static codepage table (models
`codepage.upper() in CODEPAGE_TO_CODEC` / `CODEPAGE_TO_CODEC[...]`). -/
def lookupCodepage (k : String) : Option String :=
  (CODEPAGE_TO_CODEC.find? (fun p => p.1 == k)).map (fun p => p.2)

/-- Model of Python `str.upper()` on the ASCII repertoire the codepage names
of this development use (character-wise uppercasing). -/
def pyUpper (s : String) : String :=
  String.mk (s.data.map Char.toUpper)

/-- Model of Python `str.lower()` on the ASCII repertoire the codepage names
of this development use (character-wise lowercasing). -/
def pyLower (s : String) : String :=
  String.mk (s.data.map Char.toLower)

/-- Model of `codepage.replace("-", "_")` (single-character pattern). -/
def pyReplaceDash (s : String) : String :=
  String.mk (s.data.map (fun c => if c == '-' then '_' else c))

/-- Model of `codepage.replace(" ", "")` (single-character pattern). -/
def pyStripSpaces (s : String) : String :=
  String.mk (s.data.filter (fun c => c != ' '))

/-- Model of `s.startswith(p)` by comparison with the leading characters. -/
def strStartsWith (s p : String) : Bool :=
  s.data.take p.data.length == p.data

/-- The characters of `s` after the first `n` (models `s[n:]`). -/
def strDrop (s : String) (n : Nat) : String :=
  String.mk (s.data.drop n)

/-- Model of `normalized.split("_")[-1]`: the suffix after the last
underscore (for a nonempty separator Python `split` makes the last piece
exactly that suffix). -/
def lastPieceAfterUnderscore (l : List Char) : List Char :=
  l.foldl (fun acc c => if c == '_' then [] else acc ++ [c]) []

/-- The normalized name built inside `get_codec_name`: uppercase, dashes to
underscores, spaces stripped. -/
def normName (codepage : String) : String :=
  pyStripSpaces (pyReplaceDash (pyUpper codepage))

/-- The `CP<digits>` pattern test of `get_codec_name`:
`normalized.startswith("CP") and normalized[2:].isdigit()` (Python `isdigit`
is false on the empty string). -/
def cpDigitsPattern (n : String) : Bool :=
  strStartsWith n "CP" && !(strDrop n 2).data.isEmpty
    && (strDrop n 2).data.all Char.isDigit

/-- The ISO-8859 pattern test of `get_codec_name`:
`normalized.startswith("ISO_8859_") or normalized.startswith("ISO8859_")`. -/
def isoPattern (n : String) : Bool :=
  strStartsWith n "ISO_8859_" || strStartsWith n "ISO8859_"

/-- `get_codec_name` of `codepage_mapping.py`: static-table lookup of the
uppercased name, then pattern rules on the normalized name, then the
lowercased input as a best-effort fallback. -/
def get_codec_name (codepage : String) : String :=
  match lookupCodepage (pyUpper codepage) with
  | some v => v
  | none =>
    let normalized := normName codepage
    if cpDigitsPattern normalized then
      "cp" ++ strDrop normalized 2
    else if isoPattern normalized then
      "iso-8859-" ++ String.mk (lastPieceAfterUnderscore normalized.data)
    else
      pyLower codepage

/-! ## Fallback tables -/

/-- `LOOKALIKE_MAP` of `lookalike_map.py`: ASCII look-alike fallbacks,
consulted only when direct encoding of a character fails. -/
def LOOKALIKE_MAP : List (Char × String) :=
  [('\u2018', "\x27"),
   ('\u2019', "\x27"),
   ('\u201A', ","),
   ('\u201B', "\x27"),
   ('\u201C', "\x22"),
   ('\u201D', "\x22"),
   ('\u201E', "\x22"),
   ('\u201F', "\x22"),
   ('\u2032', "\x27"),
   ('\u2033', "\x22"),
   ('\u2034', "\x27\x27\x27"),
   ('\u2035', "\x27"),
   ('\u2036', "\x22"),
   ('\u2037', "\x27\x27\x27"),
   ('\u00AB', "<<"),
   ('\u00BB', ">>"),
   ('\u2039', "<"),
   ('\u203A', ">"),
   ('\u2010', "-"),
   ('\u2011', "-"),
   ('\u2012', "-"),
   ('\u2013', "-"),
   ('\u2014', "--"),
   ('\u2015', "--"),
   ('\u2212', "-"),
   ('\uFE58', "-"),
   ('\uFE63', "-"),
   ('\uFF0D', "-"),
   ('\u00A0', " "),
   ('\u2000', " "),
   ('\u2001', " "),
   ('\u2002', " "),
   ('\u2003', " "),
   ('\u2004', " "),
   ('\u2005', " "),
   ('\u2006', " "),
   ('\u2007', " "),
   ('\u2008', " "),
   ('\u2009', " "),
   ('\u200A', " "),
   ('\u200B', ""),
   ('\u202F', " "),
   ('\u205F', " "),
   ('\u3000', " "),
   ('\uFEFF', ""),
   ('\u2026', "..."),
   ('\u22EE', ":"),
   ('\u22EF', "..."),
   ('\u00B7', "."),
   ('\u2022', "*"),
   ('\u2023', ">"),
   ('\u2024', "."),
   ('\u2025', ".."),
   ('\u2027', "-"),
   ('\u2190', "<-"),
   ('\u2191', "^"),
   ('\u2192', "->"),
   ('\u2193', "v"),
   ('\u2194', "<->"),
   ('\u21D0', "<="),
   ('\u21D2', "=>"),
   ('\u21D4', "<=>"),
   ('\u00D7', "x"),
   ('\u2260', "!="),
   ('\u2264', "<="),
   ('\u2265', ">="),
   ('\u2248', "~="),
   ('\u221E', "inf"),
   ('\u2030', "o/oo"),
   ('\u00BE', "3/4"),
   ('\u2153', "1/3"),
   ('\u2154', "2/3"),
   ('\u20AC', "EUR"),
   ('\u20A4', "GBP"),
   ('\u20B9', "INR"),
   ('\u20BD', "RUB"),
   ('\u20BF', "BTC"),
   ('\u00A9', "(C)"),
   ('\u00AE', "(R)"),
   ('\u2122', "(TM)"),
   ('\u2120', "(SM)"),
   ('\u2103', "C"),
   ('\u2109', "F"),
   ('\u00B2', "2"),
   ('\u00B3', "3"),
   ('\u00B9', "1"),
   ('\u2070', "0"),
   ('\u2074', "4"),
   ('\u2075', "5"),
   ('\u2076', "6"),
   ('\u2077', "7"),
   ('\u2078', "8"),
   ('\u2079', "9"),
   ('\u2080', "0"),
   ('\u2081', "1"),
   ('\u2082', "2"),
   ('\u2083', "3"),
   ('\u2084', "4"),
   ('\u2085', "5"),
   ('\u2086', "6"),
   ('\u2087', "7"),
   ('\u2088', "8"),
   ('\u2089', "9"),
   ('\u2016', "||"),
   ('\u2017', "_"),
   ('\u2043', "-"),
   ('\u2044', "/"),
   ('\u2052', "%"),
   ('\u20DD', "()"),
   ('\u2116', "No."),
   ('\u2117', "(P)"),
   ('\u211E', "Rx"),
   ('\u2234', "therefore"),
   ('\u2235', "because"),
   ('\u2500', "-"),
   ('\u2501', "-"),
   ('\u2502', "|"),
   ('\u2503', "|"),
   ('\u250C', "+"),
   ('\u250D', "+"),
   ('\u250E', "+"),
   ('\u250F', "+"),
   ('\u2510', "+"),
   ('\u2514', "+"),
   ('\u2518', "+"),
   ('\u251C', "+"),
   ('\u2524', "+"),
   ('\u252C', "+"),
   ('\u2534', "+"),
   ('\u253C', "+"),
   ('\u2550', "="),
   ('\u2551', "|"),
   ('\u2552', "+"),
   ('\u2553', "+"),
   ('\u2554', "+"),
   ('\u2555', "+"),
   ('\u2556', "+"),
   ('\u2557', "+"),
   ('\u2558', "+"),
   ('\u2559', "+"),
   ('\u255A', "+"),
   ('\u255B', "+"),
   ('\u255C', "+"),
   ('\u255D', "+"),
   ('\u255E', "+"),
   ('\u255F', "+"),
   ('\u2560', "+"),
   ('\u2561', "+"),
   ('\u2562', "+"),
   ('\u2563', "+"),
   ('\u2564', "+"),
   ('\u2565', "+"),
   ('\u2566', "+"),
   ('\u2567', "+"),
   ('\u2568', "+"),
   ('\u2569', "+"),
   ('\u256A', "+"),
   ('\u256B', "+"),
   ('\u256C', "+"),
   ('\u2588', "#"),
   ('\u2591', "."),
   ('\u2592', "+"),
   ('\u2593', "#"),
   ('\u2580', "^"),
   ('\u2584', "_"),
   ('\u258C', "|"),
   ('\u2590', "|"),
   ('\u2605', "*"),
   ('\u2606', "*"),
   ('\u2610', "[ ]"),
   ('\u2611', "[x]"),
   ('\u2612', "[X]"),
   ('\u2713', "v"),
   ('\u2714', "v"),
   ('\u2715', "x"),
   ('\u2716', "x"),
   ('\u2717', "x"),
   ('\u2718', "x"),
   ('\u2720', "+"),
   ('\u2756', "*"),
   ('\u2764', "<3"),
   ('\u00A6', "|"),
   ('\u00A7', "S"),
   ('\u00B6', "P"),
   ('\u00AC', "-"),
   ('\u00AF', "-")]

/-- Modelled from the spec: the file `accent_fallback_map.py` defining
`ACCENT_FALLBACK_MAP` is absent from the sources (only its import and its
uses remain), so the table is modelled from the spec alone — "an
accent/diacritic fallback map for characters present in some codepages but
not others", with the "same shape as LookalikeMap, holding accented-letter
and symbol fallbacks; consulted only after a native-encode attempt and a
look-alike attempt both fail".  The modelled keys are the Latin-1 accented
letters and a few symbols, each mapped to an ASCII fallback. -/
def ACCENT_FALLBACK_MAP : List (Char × String) :=
  [('\u00C0', "A"),
   ('\u00C1', "A"),
   ('\u00C2', "A"),
   ('\u00C3', "A"),
   ('\u00C4', "A"),
   ('\u00C5', "A"),
   ('\u00C6', "AE"),
   ('\u00C7', "C"),
   ('\u00C8', "E"),
   ('\u00C9', "E"),
   ('\u00CA', "E"),
   ('\u00CB', "E"),
   ('\u00CC', "I"),
   ('\u00CD', "I"),
   ('\u00CE', "I"),
   ('\u00CF', "I"),
   ('\u00D0', "D"),
   ('\u00D1', "N"),
   ('\u00D2', "O"),
   ('\u00D3', "O"),
   ('\u00D4', "O"),
   ('\u00D5', "O"),
   ('\u00D6', "O"),
   ('\u00D8', "O"),
   ('\u00D9', "U"),
   ('\u00DA', "U"),
   ('\u00DB', "U"),
   ('\u00DC', "U"),
   ('\u00DD', "Y"),
   ('\u00DE', "Th"),
   ('\u00DF', "ss"),
   ('\u00E0', "a"),
   ('\u00E1', "a"),
   ('\u00E2', "a"),
   ('\u00E3', "a"),
   ('\u00E4', "a"),
   ('\u00E5', "a"),
   ('\u00E6', "ae"),
   ('\u00E7', "c"),
   ('\u00E8', "e"),
   ('\u00E9', "e"),
   ('\u00EA', "e"),
   ('\u00EB', "e"),
   ('\u00EC', "i"),
   ('\u00ED', "i"),
   ('\u00EE', "i"),
   ('\u00EF', "i"),
   ('\u00F0', "d"),
   ('\u00F1', "n"),
   ('\u00F2', "o"),
   ('\u00F3', "o"),
   ('\u00F4', "o"),
   ('\u00F5', "o"),
   ('\u00F6', "o"),
   ('\u00F8', "o"),
   ('\u00F9', "u"),
   ('\u00FA', "u"),
   ('\u00FB', "u"),
   ('\u00FC', "u"),
   ('\u00FD', "y"),
   ('\u00FE', "th"),
   ('\u00FF', "y"),
   ('\u00A1', "!"),
   ('\u00BF', "?"),
   ('\u00A2', "c"),
   ('\u00A3', "GBP"),
   ('\u00A5', "JPY"),
   ('\u00B0', "deg")]

/-- Dictionary lookup in a fallback table: `some` exactly when Python
`char in MAP` holds, carrying `MAP[char]`. -/
def lookupMap (m : List (Char × String)) (c : Char) : Option String :=
  (m.find? (fun p => p.1 == c)).map (fun p => p.2)

/-! ## transcoding.py -/

/-- The accent-fallback tier of the per-character cascade in
`transcode_to_codepage` (`transcoding.py` lines 171-182): if accent
fallbacks are enabled and the character has an entry whose replacement
encodes, emit the replacement, else emit the replacement character. -/
def accentStep (enc : Codec) (rc : String) (aa : Bool) (c : Char) : String :=
  match (if aa then lookupMap ACCENT_FALLBACK_MAP c else none) with
  | some rep => if encodable enc rep then rep else rc
  | none => rc

/-- The per-character cascade of `transcode_to_codepage` (`transcoding.py`
lines 151-182), given the resolved codec `enc`: direct encode, then
look-alike tier, then accent tier, then the replacement character. -/
def transcodeChar (enc : Codec) (rc : String) (la aa : Bool) (c : Char) : String :=
  if enc c then charStr c
  else
    match (if la then lookupMap LOOKALIKE_MAP c else none) with
    | some rep => if encodable enc rep then rep else accentStep enc rc aa c
    | none => accentStep enc rc aa c

/-- `transcode_to_codepage` of `transcoding.py`, parametric in the
normalization function and the codec registry.  The `Bool` of the result
records whether the unknown-codepage warning was logged (`_LOGGER.warning`
on line 145); the `String` is the returned text. -/
def transcodeP (nfkc : String → String) (reg : Registry)
    (text codepage rc : String) (la aa : Bool) : Bool × String :=
  if text = "" then (false, text)
  else
    let normalized := nfkc text
    let codec := get_codec_name codepage
    match lookupCodec reg codec with
    | none => (true, normalized)
    | some enc => (false, joinStr (normalized.data.map (transcodeChar enc rc la aa)))

/-- `transcode_to_codepage(text, codepage, replace_char, apply_lookalikes,
apply_accents)` at the concrete environment models (`nfkcModel`,
`pythonRegistry`); the defaults of the Python signature are
`rc = "?"`, `la = true`, `aa = true`. -/
def transcode_to_codepage (text codepage rc : String) (la aa : Bool) : String :=
  (transcodeP nfkcModel pythonRegistry text codepage rc la aa).2

/-- The accent tier with the exception within it made explicit: a
`LookupError` of the inner `replacement.encode(codec)` would escape the
`except UnicodeEncodeError` handler of `transcoding.py` lines 174-179. -/
def accentStepE (reg : Registry) (codec rc : String) (aa : Bool) (c : Char) :
    Except PyError String :=
  match (if aa then lookupMap ACCENT_FALLBACK_MAP c else none) with
  | some rep =>
    match strEncode reg codec rep with
    | .ok _ => .ok rep
    | .error .lookupError => .error .lookupError
    | .error .unicodeEncodeError => .ok rc
  | none => .ok rc

/-- The per-character cascade with its exceptions made explicit, following
the `try`/`except UnicodeEncodeError` blocks of `transcoding.py` lines
151-182 exactly: each `char.encode(codec)` and `replacement.encode(codec)`
call catches only `UnicodeEncodeError`, so a `LookupError` raised there
would propagate to the caller. -/
def transcodeCharE (reg : Registry) (codec rc : String) (la aa : Bool) (c : Char) :
    Except PyError String :=
  match strEncode reg codec (charStr c) with
  | .ok _ => .ok (charStr c)
  | .error .lookupError => .error .lookupError
  | .error .unicodeEncodeError =>
    match (if la then lookupMap LOOKALIKE_MAP c else none) with
    | some rep =>
      match strEncode reg codec rep with
      | .ok _ => .ok rep
      | .error .lookupError => .error .lookupError
      | .error .unicodeEncodeError => accentStepE reg codec rc aa c
    | none => accentStepE reg codec rc aa c

/-- `transcode_to_codepage` with every exception of its body made explicit:
the probe `"".encode(codec)` catches only `LookupError` (`transcoding.py`
lines 142-146), the per-character loop propagates any exception the cascade
does not handle, and a result `.error e` would mean the Python function
raises `e` to its caller. -/
def transcodePE (nfkc : String → String) (reg : Registry)
    (text codepage rc : String) (la aa : Bool) : Except PyError (Bool × String) :=
  if text = "" then .ok (false, text)
  else
    let normalized := nfkc text
    let codec := get_codec_name codepage
    match strEncode reg codec "" with
    | .error .lookupError => .ok (true, normalized)
    | .error .unicodeEncodeError => .error .unicodeEncodeError
    | .ok _ =>
      (normalized.data.mapM (transcodeCharE reg codec rc la aa)).map
        (fun l => (false, joinStr l))

/-- One step of the accumulation loop of `get_unmappable_chars`
(`transcoding.py` lines 209-217): skip characters already collected, then
try the encode (whose `except` clause catches both `UnicodeEncodeError` and
`LookupError`), and collect the character when it also has no entry in
either fallback table. -/
def unmappableStep (reg : Registry) (codec : String) (acc : List Char) (c : Char) :
    List Char :=
  if acc.contains c then acc
  else
    match strEncode reg codec (charStr c) with
    | .ok _ => acc
    | .error _ =>
      if (lookupMap LOOKALIKE_MAP c).isNone && (lookupMap ACCENT_FALLBACK_MAP c).isNone
      then acc ++ [c] else acc

/-- `get_unmappable_chars` of `transcoding.py`, parametric in the
normalization function and the codec registry. -/
def get_unmappable_chars_P (nfkc : String → String) (reg : Registry)
    (text codepage : String) : List Char :=
  if text = "" then []
  else
    let codec := get_codec_name codepage
    ((nfkc text).data).foldl (unmappableStep reg codec) []

/-- `get_unmappable_chars(text, codepage)` at the concrete environment
models. -/
def get_unmappable_chars (text codepage : String) : List Char :=
  get_unmappable_chars_P nfkcModel pythonRegistry text codepage

/-! ## Reference definitions written from the spec, for the refinement
claims -/

/-- One fallback tier as the spec describes it: "if [the tier is] enabled
and the character is a [map] key: encode the mapped replacement string in
the resolved codec; if that succeeds, emit the replacement ...; if the
replacement itself cannot be encoded, fall through". -/
def tryRep (enabled : Bool) (m : List (Char × String)) (enc : Codec) (c : Char) :
    Option String :=
  match (if enabled then lookupMap m c else none) with
  | some rep => if encodable enc rep then some rep else none
  | none => none

/-- The per-character cascade as the spec describes it: emit the character
unchanged if it encodes natively, else the first fallback tier that
produces an encodable replacement, else the placeholder. -/
def transcodeCharSpec (enc : Codec) (rc : String) (la aa : Bool) (c : Char) : String :=
  if enc c then charStr c
  else
    match tryRep la LOOKALIKE_MAP enc c with
    | some rep => rep
    | none =>
      match tryRep aa ACCENT_FALLBACK_MAP enc c with
      | some rep => rep
      | none => rc

/-- The whole pipeline as the spec describes it (claim C2's reference
definition): NFKC-normalize the whole input first, then map the cascade
over the code points of the normalized text and concatenate. -/
def transcode_spec (nfkc : String → String) (enc : Codec)
    (text rc : String) (la aa : Bool) : String :=
  joinStr ((nfkc text).data.map (transcodeCharSpec enc rc la aa))

/-- First-occurrence deduplication, as the spec describes the diagnostic
result: "order is the order of first occurrence in the normalized text;
duplicates are suppressed". -/
def dedupFirst (l : List Char) : List Char :=
  l.foldl (fun acc c => if acc.contains c then acc else acc ++ [c]) []

/-- The characters the spec calls unmappable for a resolved codec: not
natively encodable and with no entry in either fallback table. -/
def unmappablePred (enc : Codec) (c : Char) : Bool :=
  !enc c && (lookupMap LOOKALIKE_MAP c).isNone && (lookupMap ACCENT_FALLBACK_MAP c).isNone

/-- The unmappable-character diagnostic as the spec describes it: the
distinct unmappable characters of the normalized text in order of first
occurrence. -/
def unmappable_spec (nfkc : String → String) (enc : Codec) (text : String) : List Char :=
  dedupFirst ((nfkc text).data.filter (unmappablePred enc))

/-- The characters reported when the codec itself is unknown: every
per-character probe raises `LookupError`, so only fallback-table membership
filters the report (claim C9). -/
def unmappableNoCodecPred (c : Char) : Bool :=
  (lookupMap LOOKALIKE_MAP c).isNone && (lookupMap ACCENT_FALLBACK_MAP c).isNone

/-! ## Basic lemmas about the embedding -/

theorem charStr_data (c : Char) : (charStr c).data = [c] := rfl

theorem joinStr_data (l : List String) :
    (joinStr l).data = (l.map String.data).flatten := rfl

theorem stringMk_data (s : String) : String.mk s.data = s := by
  cases s
  rfl

theorem charStr_ne_empty (c : Char) : charStr c ≠ "" := by
  intro h
  have hd : (charStr c).data = ("" : String).data := by rw [h]
  simp [charStr_data] at hd

theorem encodable_charStr (enc : Codec) (c : Char) :
    encodable enc (charStr c) = enc c := by
  simp [encodable, charStr]

theorem strEncode_lookup_some {reg : Registry} {codec : String} {enc : Codec}
    (h : lookupCodec reg codec = some enc) (s : String) :
    strEncode reg codec s
      = if encodable enc s then .ok () else .error .unicodeEncodeError := by
  unfold strEncode
  rw [h]

theorem strEncode_lookup_none {reg : Registry} {codec : String}
    (h : lookupCodec reg codec = none) (s : String) :
    strEncode reg codec s = .error .lookupError := by
  unfold strEncode
  rw [h]

theorem mem_accentStep {enc : Codec} {rc : String} {aa : Bool} {c x : Char}
    (hx : x ∈ (accentStep enc rc aa c).data) : enc x = true ∨ x ∈ rc.data := by
  unfold accentStep at hx
  split at hx
  case h_1 rep heq =>
    split at hx
    case isTrue he =>
      left
      have hall : rep.data.all enc = true := he
      exact List.all_eq_true.mp hall x hx
    case isFalse he => exact Or.inr hx
  case h_2 => exact Or.inr hx

theorem mem_transcodeChar {enc : Codec} {rc : String} {la aa : Bool} {c x : Char}
    (hx : x ∈ (transcodeChar enc rc la aa c).data) : enc x = true ∨ x ∈ rc.data := by
  unfold transcodeChar at hx
  split at hx
  case isTrue hc =>
    rw [charStr_data] at hx
    simp only [List.mem_singleton] at hx
    subst hx
    exact Or.inl hc
  case isFalse hc =>
    split at hx
    case h_1 rep heq =>
      split at hx
      case isTrue he =>
        left
        have hall : rep.data.all enc = true := he
        exact List.all_eq_true.mp hall x hx
      case isFalse he => exact mem_accentStep hx
    case h_2 => exact mem_accentStep hx

theorem transcodeChar_of_enc {enc : Codec} {c : Char} (hc : enc c = true)
    (rc : String) (la aa : Bool) : transcodeChar enc rc la aa c = charStr c := by
  unfold transcodeChar
  rw [if_pos hc]

theorem accentStepE_ok {reg : Registry} {codec : String} {enc : Codec}
    (h : lookupCodec reg codec = some enc) (rc : String) (aa : Bool) (c : Char) :
    accentStepE reg codec rc aa c = .ok (accentStep enc rc aa c) := by
  unfold accentStepE accentStep
  cases hm : (if aa then lookupMap ACCENT_FALLBACK_MAP c else none) with
  | none => rfl
  | some rep =>
    simp only [strEncode_lookup_some h]
    by_cases he : encodable enc rep = true
    · simp [he]
    · simp [he]

theorem transcodeCharE_ok {reg : Registry} {codec : String} {enc : Codec}
    (h : lookupCodec reg codec = some enc) (rc : String) (la aa : Bool) (c : Char) :
    transcodeCharE reg codec rc la aa c = .ok (transcodeChar enc rc la aa c) := by
  unfold transcodeCharE transcodeChar
  rw [strEncode_lookup_some h, encodable_charStr]
  by_cases hc : enc c = true
  · simp [hc]
  · simp only [hc, if_false, Bool.false_eq_true]
    cases hm : (if la then lookupMap LOOKALIKE_MAP c else none) with
    | none => exact accentStepE_ok h rc aa c
    | some rep =>
      simp only [strEncode_lookup_some h]
      by_cases he : encodable enc rep = true
      · simp [he]
      · simp only [he, if_false, Bool.false_eq_true]
        exact accentStepE_ok h rc aa c

theorem mapM_transcodeCharE {reg : Registry} {codec : String} {enc : Codec}
    (h : lookupCodec reg codec = some enc) (rc : String) (la aa : Bool)
    (l : List Char) :
    l.mapM (transcodeCharE reg codec rc la aa)
      = .ok (l.map (transcodeChar enc rc la aa)) := by
  induction l with
  | nil => rfl
  | cons c t ih =>
    rw [List.mapM_cons, transcodeCharE_ok h, ih]
    rfl

/-- C8: for every well-formed Unicode input string and every codepage name,
`transcode_to_codepage` runs to completion and never raises to its caller:
with every exception of its body made explicit, the pipeline always returns
`.ok` of the value the total model computes — unencodable characters resolve
to a substitute or the placeholder, and an unknown codepage resolves to
pass-through, never to an error. -/
theorem claim8_transcode_never_raises (nfkc : String → String) (reg : Registry)
    (text codepage rc : String) (la aa : Bool) :
    transcodePE nfkc reg text codepage rc la aa
      = .ok (transcodeP nfkc reg text codepage rc la aa) := by
  unfold transcodePE transcodeP
  by_cases ht : text = ""
  · rw [if_pos ht, if_pos ht]
  · rw [if_neg ht, if_neg ht]
    cases h : lookupCodec reg (get_codec_name codepage) with
    | none =>
      simp only [strEncode_lookup_none h, h]
    | some enc =>
      have hempty : encodable enc "" = true := rfl
      simp only [strEncode_lookup_some h, h, hempty, if_true, mapM_transcodeCharE h]
      rfl

theorem transcodeP_empty (nfkc : String → String) (reg : Registry)
    (codepage rc : String) (la aa : Bool) :
    transcodeP nfkc reg "" codepage rc la aa = (false, "") := rfl

theorem transcodeP_none {reg : Registry} {codepage : String}
    (h : lookupCodec reg (get_codec_name codepage) = none)
    (nfkc : String → String) {text : String} (ht : text ≠ "")
    (rc : String) (la aa : Bool) :
    transcodeP nfkc reg text codepage rc la aa = (true, nfkc text) := by
  unfold transcodeP
  rw [if_neg ht]
  simp only [h]

theorem transcodeP_some {reg : Registry} {codepage : String} {enc : Codec}
    (h : lookupCodec reg (get_codec_name codepage) = some enc)
    (nfkc : String → String) {text : String} (ht : text ≠ "")
    (rc : String) (la aa : Bool) :
    transcodeP nfkc reg text codepage rc la aa
      = (false, joinStr ((nfkc text).data.map (transcodeChar enc rc la aa))) := by
  unfold transcodeP
  rw [if_neg ht]
  simp only [h]

theorem mem_joinStr_map {f : Char → String} {l : List Char} {x : Char}
    (hx : x ∈ (joinStr (l.map f)).data) : ∃ c ∈ l, x ∈ (f c).data := by
  rw [joinStr_data] at hx
  rw [List.mem_flatten] at hx
  obtain ⟨d, hd, hxd⟩ := hx
  rw [List.map_map, List.mem_map] at hd
  obtain ⟨c, hc, hdc⟩ := hd
  exact ⟨c, hc, by rw [← hdc] at hxd; exact hxd⟩

/-- C1: for every input text, every codepage name whose resolved codec exists
in the registry (the probe encode succeeds), and every placeholder argument,
each character of the string `transcode_to_codepage` returns is either
natively encodable in the resolved codec or a character of the placeholder;
hence whenever the placeholder itself is encodable (the spec requires it to
be ASCII), encoding the whole output with the resolved codec succeeds. -/
theorem claim1_output_encodable_or_placeholder
    (nfkc : String → String) (reg : Registry) (text codepage rc : String)
    (la aa : Bool) (enc : Codec)
    (h : lookupCodec reg (get_codec_name codepage) = some enc) :
    (∀ x ∈ ((transcodeP nfkc reg text codepage rc la aa).2).data,
        enc x = true ∨ x ∈ rc.data)
    ∧ (rc.data.all enc = true →
        encodable enc (transcodeP nfkc reg text codepage rc la aa).2 = true) := by
  by_cases ht : text = ""
  · subst ht
    rw [transcodeP_empty]
    exact ⟨fun x hx => absurd hx (by simp), fun _ => rfl⟩
  · rw [transcodeP_some h nfkc ht rc la aa]
    have hmem : ∀ x ∈ (joinStr ((nfkc text).data.map (transcodeChar enc rc la aa))).data,
        enc x = true ∨ x ∈ rc.data := by
      intro x hx
      obtain ⟨c, _, hxc⟩ := mem_joinStr_map hx
      exact mem_transcodeChar hxc
    refine ⟨hmem, fun hrc => ?_⟩
    apply List.all_eq_true.mpr
    intro x hx
    rcases hmem x hx with hgood | hph
    · exact hgood
    · exact List.all_eq_true.mp hrc x hph

theorem claim1_witness :
    lookupCodec pythonRegistry (get_codec_name "CP437") = some cp437Enc
    ∧ "?".data.all cp437Enc = true
    ∧ encodable cp437Enc
        (transcodeP nfkcModel pythonRegistry "café中" "CP437" "?" true true).2
        = true :=
  ⟨rfl, by decide,
   (claim1_output_encodable_or_placeholder nfkcModel pythonRegistry
      "café中" "CP437" "?" true true cp437Enc rfl).2 (by decide)⟩

theorem transcodeChar_eq_spec (enc : Codec) (rc : String) (la aa : Bool) (c : Char) :
    transcodeChar enc rc la aa c = transcodeCharSpec enc rc la aa c := by
  unfold transcodeChar transcodeCharSpec tryRep accentStep
  by_cases hc : enc c = true
  · simp [hc]
  · simp only [hc, Bool.false_eq_true, if_false]
    cases hm : (if la then lookupMap LOOKALIKE_MAP c else none) with
    | some rep =>
      by_cases he : encodable enc rep = true
      · simp [he]
      · simp only [he, Bool.false_eq_true, if_false]
        cases hm2 : (if aa then lookupMap ACCENT_FALLBACK_MAP c else none) with
        | some rep2 =>
          by_cases he2 : encodable enc rep2 = true
          · simp [he2]
          · simp [he2]
        | none => rfl
    | none =>
      cases hm2 : (if aa then lookupMap ACCENT_FALLBACK_MAP c else none) with
      | some rep2 =>
        by_cases he2 : encodable enc rep2 = true
        · simp [he2]
        · simp [he2]
      | none => rfl

/-- C2: for every non-empty input text and every codepage whose resolved codec
exists, `transcode_to_codepage` equals the reference definition written from
the spec (`transcode_spec`): NFKC-normalize the whole input first, then for
each code point in order emit the character if it encodes natively, else the
look-alike replacement if enabled, present and encodable, else the accent
replacement if enabled, present and encodable, else the placeholder, and
concatenate; and empty input returns empty output. -/
theorem claim2_matches_reference_definition
    (nfkc : String → String) (reg : Registry) (text codepage rc : String)
    (la aa : Bool) (enc : Codec)
    (h : lookupCodec reg (get_codec_name codepage) = some enc) :
    (text ≠ "" → (transcodeP nfkc reg text codepage rc la aa).2
        = transcode_spec nfkc enc text rc la aa)
    ∧ (transcodeP nfkc reg "" codepage rc la aa).2 = "" := by
  constructor
  · intro ht
    rw [transcodeP_some h nfkc ht rc la aa]
    unfold transcode_spec
    have hchar : transcodeChar enc rc la aa = transcodeCharSpec enc rc la aa :=
      funext (transcodeChar_eq_spec enc rc la aa)
    rw [hchar]
  · rfl

theorem claim2_witness :
    ("café│" ≠ "")
    ∧ lookupCodec pythonRegistry (get_codec_name "CP437") = some cp437Enc
    ∧ (transcodeP nfkcModel pythonRegistry "café│" "CP437" "?" true true).2
        = transcode_spec nfkcModel cp437Enc "café│" "?" true true :=
  ⟨by decide, rfl,
   (claim2_matches_reference_definition nfkcModel pythonRegistry
      "café│" "CP437" "?" true true cp437Enc rfl).1 (by decide)⟩

/-- C4: for every non-empty input text and every codepage name whose resolved
codec name is unknown to the runtime encoding layer (the probe encode raises
a lookup error), `transcode_to_codepage` logs the unknown-codepage warning
(the `Bool` of `transcodeP` is `true`) and returns the NFKC-normalized input
unchanged, with no per-character substitution and no exception; in
particular `transcode("café", "NOT_A_REAL_CODEPAGE")` returns `"café"`. -/
theorem claim4_unknown_codepage_passthrough :
    (∀ (nfkc : String → String) (reg : Registry) (text codepage rc : String)
       (la aa : Bool), text ≠ "" →
       lookupCodec reg (get_codec_name codepage) = none →
       transcodeP nfkc reg text codepage rc la aa = (true, nfkc text))
    ∧ transcodeP nfkcModel pythonRegistry "café" "NOT_A_REAL_CODEPAGE" "?" true true
        = (true, "café") := by
  constructor
  · intro nfkc reg text codepage rc la aa ht h
    exact transcodeP_none h nfkc ht rc la aa
  · decide

theorem claim4_witness :
    ("café" ≠ "")
    ∧ lookupCodec pythonRegistry (get_codec_name "NOT_A_REAL_CODEPAGE") = none
    ∧ transcodeP nfkcModel pythonRegistry "café" "NOT_A_REAL_CODEPAGE" "?" true true
        = (true, "café") :=
  ⟨by decide, rfl,
   (claim4_unknown_codepage_passthrough).1 nfkcModel pythonRegistry
      "café" "NOT_A_REAL_CODEPAGE" "?" true true (by decide) rfl⟩

theorem transcodeChar_lookalike {enc : Codec} {c : Char} {rep : String}
    (hc : enc c = false) (hm : lookupMap LOOKALIKE_MAP c = some rep)
    (he : encodable enc rep = true) (rc : String) (aa : Bool) :
    transcodeChar enc rc true aa c = rep := by
  unfold transcodeChar
  simp only [hc, Bool.false_eq_true, if_false, if_true, hm, he]

/-- C3 counterexample: the claim that every natively encodable character is
left unchanged fails at U+00B2 SUPERSCRIPT TWO and `"CP437"`: U+00B2 is
natively encodable in cp437 (byte 0xFD) and is a key of the look-alike map,
yet `transcode_to_codepage` returns `"2"`, because NFKC normalization
rewrites the character before the per-character cascade runs. -/
theorem claim3_counterexample :
    cp437Enc '²' = true
    ∧ lookupCodec pythonRegistry (get_codec_name "CP437") = some cp437Enc
    ∧ (lookupMap LOOKALIKE_MAP '²').isSome = true
    ∧ transcode_to_codepage "²" "CP437" "?" true true = "2"
    ∧ transcode_to_codepage "²" "CP437" "?" true true ≠ "²" :=
  ⟨by decide, rfl, by decide, by decide, by decide⟩

/-- C3 (amended): for every single character that is NFKC-invariant and
natively encodable in the target codepage, `transcode_to_codepage` leaves it
unchanged even when it is also a key of the look-alike map; in particular
transcoding U+2502 to `"CP437"` yields U+2502 unchanged (not `"|"`), while
transcoding U+2502 to `"ISO_8859-1"` (which lacks it) yields `"|"`. -/
theorem claim3_native_preservation :
    (∀ (codepage : String) (enc : Codec) (c : Char),
       lookupCodec pythonRegistry (get_codec_name codepage) = some enc →
       nfkcModel (charStr c) = charStr c →
       enc c = true →
       transcode_to_codepage (charStr c) codepage "?" true true = charStr c)
    ∧ transcode_to_codepage "│" "CP437" "?" true true = "│"
    ∧ transcode_to_codepage "│" "ISO_8859-1" "?" true true = "|" := by
  refine ⟨?_, by decide, by decide⟩
  intro codepage enc c h hn hc
  unfold transcode_to_codepage
  rw [transcodeP_some h nfkcModel (charStr_ne_empty c) "?" true true]
  show joinStr ((nfkcModel (charStr c)).data.map (transcodeChar enc "?" true true)) = charStr c
  rw [hn, charStr_data]
  simp only [List.map_cons, List.map_nil]
  rw [transcodeChar_of_enc hc]
  rfl

theorem claim3_witness :
    lookupCodec pythonRegistry (get_codec_name "CP437") = some cp437Enc
    ∧ nfkcModel (charStr 'A') = charStr 'A'
    ∧ cp437Enc 'A' = true
    ∧ transcode_to_codepage (charStr 'A') "CP437" "?" true true = charStr 'A' :=
  ⟨rfl, by decide, by decide,
   claim3_native_preservation.1 "CP437" cp437Enc 'A' rfl (by decide) (by decide)⟩

/-- C5: `get_codec_name` returns the static-table codec when the
case-insensitive exact lookup succeeds; otherwise, on the normalized name
(uppercase, dashes to underscores, spaces stripped), `"cp" ++ digits` when
the name matches `CP<digits>`, or `"iso-8859-" ++ n` when it matches
`ISO_8859_<n>` or `ISO8859_<n>`; otherwise the lowercased input.  (It is a
total function of its string input, so it never raises.) -/
theorem claim5_codec_resolution (codepage : String) :
    (∀ v, lookupCodepage (pyUpper codepage) = some v → get_codec_name codepage = v)
    ∧ (lookupCodepage (pyUpper codepage) = none →
        (cpDigitsPattern (normName codepage) = true →
          get_codec_name codepage = "cp" ++ strDrop (normName codepage) 2)
        ∧ (cpDigitsPattern (normName codepage) = false →
            isoPattern (normName codepage) = true →
            get_codec_name codepage
              = "iso-8859-" ++ String.mk (lastPieceAfterUnderscore (normName codepage).data))
        ∧ (cpDigitsPattern (normName codepage) = false →
            isoPattern (normName codepage) = false →
            get_codec_name codepage = pyLower codepage)) := by
  refine ⟨fun v hv => ?_, fun hnone => ⟨fun hcp => ?_, fun hcp hiso => ?_, fun hcp hiso => ?_⟩⟩
  · simp [get_codec_name, hv]
  · simp [get_codec_name, hnone, hcp]
  · simp [get_codec_name, hnone, hcp, hiso]
  · simp [get_codec_name, hnone, hcp, hiso]

theorem claim5_witness :
    lookupCodepage (pyUpper "CP 1252") = none
    ∧ cpDigitsPattern (normName "CP 1252") = true
    ∧ get_codec_name "CP 1252" = "cp1252" :=
  ⟨by decide, by decide,
   (((claim5_codec_resolution "CP 1252").2 (by decide)).1 (by decide)).trans (by decide)⟩

/-- C10: some look-alike replacements are the empty string, so the pipeline
can delete characters: for every codepage of the registry whose resolved
codec cannot natively encode U+200B ZERO WIDTH SPACE or U+FEFF ZERO WIDTH
NO-BREAK SPACE, those characters are mapped to the empty replacement (which
always encodes), so `transcode("\u200B", "CP437") = ""` and the output is
strictly shorter than the input with no placeholder emitted. -/
theorem claim10_empty_replacement_deletion :
    (∀ (codepage : String) (enc : Codec),
       lookupCodec pythonRegistry (get_codec_name codepage) = some enc →
       enc '\u200B' = false →
       transcode_to_codepage "\u200B" codepage "?" true true = "")
    ∧ (∀ (codepage : String) (enc : Codec),
       lookupCodec pythonRegistry (get_codec_name codepage) = some enc →
       enc '\uFEFF' = false →
       transcode_to_codepage "\uFEFF" codepage "?" true true = "")
    ∧ lookupMap LOOKALIKE_MAP '\u200B' = some ""
    ∧ lookupMap LOOKALIKE_MAP '\uFEFF' = some ""
    ∧ transcode_to_codepage "\u200B" "CP437" "?" true true = ""
    ∧ ("" : String).data.length < ("\u200B" : String).data.length := by
  refine ⟨?_, ?_, by decide, by decide, by decide, by decide⟩
  · intro codepage enc h hc
    unfold transcode_to_codepage
    rw [transcodeP_some h nfkcModel (by decide) "?" true true]
    show joinStr ((nfkcModel "\u200B").data.map (transcodeChar enc "?" true true)) = ""
    have hn : (nfkcModel "\u200B").data = ['\u200B'] := by decide
    rw [hn]
    simp only [List.map_cons, List.map_nil]
    have hm : lookupMap LOOKALIKE_MAP '\u200B' = some "" := by decide
    rw [transcodeChar_lookalike hc hm rfl "?" true]
    rfl
  · intro codepage enc h hc
    unfold transcode_to_codepage
    rw [transcodeP_some h nfkcModel (by decide) "?" true true]
    show joinStr ((nfkcModel "\uFEFF").data.map (transcodeChar enc "?" true true)) = ""
    have hn : (nfkcModel "\uFEFF").data = ['\uFEFF'] := by decide
    rw [hn]
    simp only [List.map_cons, List.map_nil]
    have hm : lookupMap LOOKALIKE_MAP '\uFEFF' = some "" := by decide
    rw [transcodeChar_lookalike hc hm rfl "?" true]
    rfl

theorem claim10_witness :
    lookupCodec pythonRegistry (get_codec_name "CP437") = some cp437Enc
    ∧ cp437Enc '\u200B' = false
    ∧ transcode_to_codepage "\u200B" "CP437" "?" true true = "" :=
  ⟨rfl, by decide,
   claim10_empty_replacement_deletion.1 "CP437" cp437Enc rfl (by decide)⟩

theorem unmappable_fold_some {reg : Registry} {codec : String} {enc : Codec}
    (h : lookupCodec reg codec = some enc) (l : List Char) :
    ∀ acc : List Char, (∀ a ∈ acc, unmappablePred enc a = true) →
      l.foldl (unmappableStep reg codec) acc
        = (l.filter (unmappablePred enc)).foldl
            (fun acc c => if acc.contains c then acc else acc ++ [c]) acc := by
  induction l with
  | nil => intro acc _; rfl
  | cons c t ih =>
    intro acc hacc
    rw [List.foldl_cons]
    by_cases hmem : acc.contains c = true
    · have hpred : unmappablePred enc c = true := hacc c (by simpa using hmem)
      rw [List.filter_cons_of_pos hpred, List.foldl_cons]
      have hstep : unmappableStep reg codec acc c = acc := by
        unfold unmappableStep
        rw [if_pos hmem]
      have hdstep : (if acc.contains c then acc else acc ++ [c]) = acc := by
        rw [if_pos hmem]
      rw [hstep, hdstep]
      exact ih acc hacc
    · have hmem2 : acc.contains c = false := by simpa using hmem
      by_cases henc : enc c = true
      · have hpred : unmappablePred enc c = false := by
          simp [unmappablePred, henc]
        rw [List.filter_cons_of_neg (by simp [hpred])]
        have hstep : unmappableStep reg codec acc c = acc := by
          unfold unmappableStep
          rw [if_neg hmem]
          simp only [strEncode_lookup_some h, encodable_charStr, henc, if_true]
        rw [hstep]
        exact ih acc hacc
      · have henc2 : enc c = false := by simpa using henc
        by_cases hmaps : ((lookupMap LOOKALIKE_MAP c).isNone
            && (lookupMap ACCENT_FALLBACK_MAP c).isNone) = true
        · have hpred : unmappablePred enc c = true := by
            simp only [unmappablePred, henc2, Bool.not_false, Bool.true_and]
            exact hmaps
          rw [List.filter_cons_of_pos hpred, List.foldl_cons]
          have hstep : unmappableStep reg codec acc c = acc ++ [c] := by
            unfold unmappableStep
            rw [if_neg hmem]
            simp only [strEncode_lookup_some h, encodable_charStr, henc2,
              Bool.false_eq_true, if_false, hmaps, if_true]
          have hdstep : (if acc.contains c then acc else acc ++ [c]) = acc ++ [c] := by
            rw [if_neg hmem]
          rw [hstep, hdstep]
          apply ih
          intro a ha
          rcases List.mem_append.mp ha with ha | ha
          · exact hacc a ha
          · have haeq : a = c := by simpa using ha
            rw [haeq]
            exact hpred
        · have hmaps2 : ((lookupMap LOOKALIKE_MAP c).isNone
              && (lookupMap ACCENT_FALLBACK_MAP c).isNone) = false := by
            simp only [Bool.not_eq_true] at hmaps
            exact hmaps
          have hpred : unmappablePred enc c = false := by
            simp only [unmappablePred, henc2, Bool.not_false, Bool.true_and]
            exact hmaps2
          rw [List.filter_cons_of_neg (by simp [hpred])]
          have hstep : unmappableStep reg codec acc c = acc := by
            unfold unmappableStep
            rw [if_neg hmem]
            simp only [strEncode_lookup_some h, encodable_charStr, henc2,
              Bool.false_eq_true, if_false, hmaps2]
          rw [hstep]
          exact ih acc hacc

theorem unmappable_fold_none {reg : Registry} {codec : String}
    (h : lookupCodec reg codec = none) (l : List Char) :
    ∀ acc : List Char, (∀ a ∈ acc, unmappableNoCodecPred a = true) →
      l.foldl (unmappableStep reg codec) acc
        = (l.filter unmappableNoCodecPred).foldl
            (fun acc c => if acc.contains c then acc else acc ++ [c]) acc := by
  induction l with
  | nil => intro acc _; rfl
  | cons c t ih =>
    intro acc hacc
    rw [List.foldl_cons]
    by_cases hmem : acc.contains c = true
    · have hpred : unmappableNoCodecPred c = true := hacc c (by simpa using hmem)
      rw [List.filter_cons_of_pos hpred, List.foldl_cons]
      have hstep : unmappableStep reg codec acc c = acc := by
        unfold unmappableStep
        rw [if_pos hmem]
      have hdstep : (if acc.contains c then acc else acc ++ [c]) = acc := by
        rw [if_pos hmem]
      rw [hstep, hdstep]
      exact ih acc hacc
    · by_cases hmaps : ((lookupMap LOOKALIKE_MAP c).isNone
          && (lookupMap ACCENT_FALLBACK_MAP c).isNone) = true
      · have hpred : unmappableNoCodecPred c = true := hmaps
        rw [List.filter_cons_of_pos hpred, List.foldl_cons]
        have hstep : unmappableStep reg codec acc c = acc ++ [c] := by
          unfold unmappableStep
          rw [if_neg hmem]
          simp only [strEncode_lookup_none h, hmaps, if_true]
        have hdstep : (if acc.contains c then acc else acc ++ [c]) = acc ++ [c] := by
          rw [if_neg hmem]
        rw [hstep, hdstep]
        apply ih
        intro a ha
        rcases List.mem_append.mp ha with ha | ha
        · exact hacc a ha
        · have haeq : a = c := by simpa using ha
          rw [haeq]
          exact hpred
      · have hmaps2 : ((lookupMap LOOKALIKE_MAP c).isNone
            && (lookupMap ACCENT_FALLBACK_MAP c).isNone) = false := by
          simp only [Bool.not_eq_true] at hmaps
          exact hmaps
        have hpred : unmappableNoCodecPred c = false := hmaps2
        rw [List.filter_cons_of_neg (by simp [hpred])]
        have hstep : unmappableStep reg codec acc c = acc := by
          unfold unmappableStep
          rw [if_neg hmem]
          simp only [strEncode_lookup_none h, hmaps2, Bool.false_eq_true, if_false]
        rw [hstep]
        exact ih acc hacc

/-- C6: for every input text and every codepage whose resolved codec exists,
`get_unmappable_chars` returns exactly the distinct characters of the
NFKC-normalized text that cannot be natively encoded and have no entry in
either fallback map, in order of first occurrence with duplicates
suppressed; in particular `find_unmappable("中abc", "CP437")` is exactly
`["中"]`. -/
theorem claim6_unmappable_diagnostic :
    (∀ (nfkc : String → String) (reg : Registry) (text codepage : String)
       (enc : Codec), nfkc "" = "" →
       lookupCodec reg (get_codec_name codepage) = some enc →
       get_unmappable_chars_P nfkc reg text codepage = unmappable_spec nfkc enc text)
    ∧ get_unmappable_chars "中abc" "CP437" = ['中'] := by
  constructor
  · intro nfkc reg text codepage enc h0 h
    by_cases ht : text = ""
    · subst ht
      unfold get_unmappable_chars_P unmappable_spec dedupFirst
      rw [if_pos rfl, h0]
      rfl
    · unfold get_unmappable_chars_P unmappable_spec dedupFirst
      rw [if_neg ht]
      exact unmappable_fold_some h (nfkc text).data [] (by intro a ha; cases ha)
  · decide

theorem claim6_witness :
    nfkcModel "" = ""
    ∧ lookupCodec pythonRegistry (get_codec_name "CP437") = some cp437Enc
    ∧ get_unmappable_chars_P nfkcModel pythonRegistry "中abc" "CP437"
        = unmappable_spec nfkcModel cp437Enc "中abc" :=
  ⟨rfl, rfl,
   claim6_unmappable_diagnostic.1 nfkcModel pythonRegistry "中abc" "CP437"
     cp437Enc rfl rfl⟩

/-- C9: for every non-empty input text and every codepage name whose
resolved codec does not exist at the runtime encoding layer,
`get_unmappable_chars` does not pass through or warn the way
`transcode_to_codepage` does: the per-character lookup error is caught like
an encoding failure, so the result is every distinct character of the
NFKC-normalized text that has no entry in either fallback map (fallback-map
keys are never reported even though nothing can be encoded). -/
theorem claim9_unknown_codec_reports_nonkeys
    (nfkc : String → String) (reg : Registry) (text codepage : String)
    (ht : text ≠ "")
    (h : lookupCodec reg (get_codec_name codepage) = none) :
    get_unmappable_chars_P nfkc reg text codepage
      = dedupFirst ((nfkc text).data.filter unmappableNoCodecPred) := by
  unfold get_unmappable_chars_P dedupFirst
  rw [if_neg ht]
  exact unmappable_fold_none h (nfkc text).data [] (by intro a ha; cases ha)

theorem claim9_witness :
    ("caféX" ≠ "")
    ∧ lookupCodec pythonRegistry (get_codec_name "NOT_A_REAL_CODEPAGE") = none
    ∧ get_unmappable_chars_P nfkcModel pythonRegistry "caféX" "NOT_A_REAL_CODEPAGE"
        = dedupFirst (((nfkcModel "caféX").data).filter unmappableNoCodecPred) :=
  ⟨by decide, rfl,
   claim9_unknown_codec_reports_nonkeys nfkcModel pythonRegistry
     "caféX" "NOT_A_REAL_CODEPAGE" (by decide) rfl⟩

theorem transcodeP_some_snd {reg : Registry} {codepage : String} {enc : Codec}
    (h : lookupCodec reg (get_codec_name codepage) = some enc)
    (nfkc : String → String) {text : String} (ht : text ≠ "")
    (rc : String) (la aa : Bool) :
    (transcodeP nfkc reg text codepage rc la aa).2
      = joinStr ((nfkc text).data.map (transcodeChar enc rc la aa)) := by
  rw [transcodeP_some h nfkc ht rc la aa]

theorem transcodeChar_question (enc : Codec) :
    transcodeChar enc "?" true true '?' = charStr '?' := by
  by_cases h7 : enc '?' = true
  · exact transcodeChar_of_enc h7 "?" true true
  · have h72 : enc '?' = false := by simpa using h7
    have hl : lookupMap LOOKALIKE_MAP '?' = none := by decide
    have ha : lookupMap ACCENT_FALLBACK_MAP '?' = none := by decide
    unfold transcodeChar accentStep
    simp only [h72, Bool.false_eq_true, if_false, if_true, hl, ha]
    rfl

theorem joinStr_map_charStr (l : List Char) : joinStr (l.map charStr) = String.mk l := by
  have hdata : ((l.map charStr).map String.data).flatten = l := by
    induction l with
    | nil => rfl
    | cons c t ih =>
      simp only [List.map_cons, charStr_data, List.flatten_cons, List.singleton_append]
      rw [ih]
  unfold joinStr
  rw [hdata]

theorem transcode_output_fixed (nfkc : String → String) (reg : Registry)
    (text : String) {codepage : String} {enc : Codec}
    (h : lookupCodec reg (get_codec_name codepage) = some enc) :
    ∀ x ∈ ((transcodeP nfkc reg text codepage "?" true true).2).data,
      transcodeChar enc "?" true true x = charStr x := by
  intro x hx
  by_cases ht : text = ""
  · rw [ht, transcodeP_empty] at hx
    simp at hx
  · rw [transcodeP_some_snd h nfkc ht "?" true true] at hx
    obtain ⟨c, _, hxc⟩ := mem_joinStr_map hx
    rcases mem_transcodeChar hxc with hgood | hph
    · exact transcodeChar_of_enc hgood "?" true true
    · have hx7 : x = '?' := by simpa using hph
      rw [hx7]
      exact transcodeChar_question enc

/-- C7 counterexample: applying `transcode_to_codepage` with the same
codepage and the default arguments a second time is not always the
identity on the first output.  With input U+2234 U+0301 and codepage
`"CP1258"`, the first pass emits the look-alike replacement `"therefore"`
for U+2234 and keeps the combining acute accent U+0301 (natively encodable
in cp1258), so the second pass's NFKC normalization composes the final
`e` with the accent into `é`, changing the string. -/
theorem claim7_counterexample :
    transcode_to_codepage
        (transcode_to_codepage "\u2234\u0301" "CP1258" "?" true true) "CP1258" "?" true true
      ≠ transcode_to_codepage "\u2234\u0301" "CP1258" "?" true true := by
  decide

/-- C7 (amended): re-transcoding the output with the same codepage and the
same default arguments is the identity whenever the first output is a fixed
point of the normalization (as stated, the claim fails when a substitution
places a base letter directly before a kept combining mark, since the
second pass's NFKC normalization composes them). -/
theorem claim7_idempotent_on_normalized_output
    (nfkc : String → String) (reg : Registry) (text codepage : String)
    (hfix : nfkc ((transcodeP nfkc reg text codepage "?" true true).2)
        = (transcodeP nfkc reg text codepage "?" true true).2) :
    (transcodeP nfkc reg ((transcodeP nfkc reg text codepage "?" true true).2)
        codepage "?" true true).2
      = (transcodeP nfkc reg text codepage "?" true true).2 := by
  by_cases hoe : (transcodeP nfkc reg text codepage "?" true true).2 = ""
  · rw [hoe]
    rfl
  · cases h : lookupCodec reg (get_codec_name codepage) with
    | none =>
      rw [transcodeP_none h nfkc hoe "?" true true]
      exact hfix
    | some enc =>
      rw [transcodeP_some_snd h nfkc hoe "?" true true, hfix]
      have hchars := transcode_output_fixed nfkc reg text h
      rw [List.map_congr_left hchars, joinStr_map_charStr, stringMk_data]

theorem claim7_witness :
    nfkcModel ((transcodeP nfkcModel pythonRegistry "│" "CP437" "?" true true).2)
      = (transcodeP nfkcModel pythonRegistry "│" "CP437" "?" true true).2
    ∧ (transcodeP nfkcModel pythonRegistry
        ((transcodeP nfkcModel pythonRegistry "│" "CP437" "?" true true).2)
        "CP437" "?" true true).2
      = (transcodeP nfkcModel pythonRegistry "│" "CP437" "?" true true).2 :=
  ⟨by decide,
   claim7_idempotent_on_normalized_output nfkcModel pythonRegistry "│" "CP437"
     (by decide)⟩

end EscposTranscode
